import Mathlib

/-!
Verification of the customer-follow-up CRM core against its natural-language
specification.  The definitions below are a shallow embedding of the
TypeScript source: relational rows become structures, the database becomes a
record of row lists, each HTTP handler becomes a function from database state
(plus the request and the freshly generated ids / timestamps that the runtime
would supply) to a result and a successor state.  Prisma `orderBy` clauses and
the client-side `Array.prototype.sort` are modelled with `List.mergeSort`
(both are stable sorts producing a permutation of their input that is sorted
with respect to the comparison).
-/

namespace CRM

/-! ## String helpers (substring containment, used by `handleDatabaseError`) -/

/-- `charsStartWith pat cs` is true when `pat` is an initial segment of `cs`. -/
def charsStartWith : List Char → List Char → Bool
  | [], _ => true
  | _ :: _, [] => false
  | p :: ps, c :: cs => p = c && charsStartWith ps cs

/-- `charsContain pat cs` is true when `pat` occurs contiguously inside `cs`. -/
def charsContain (pat : List Char) : List Char → Bool
  | [] => charsStartWith pat []
  | c :: cs => charsStartWith pat (c :: cs) || charsContain pat cs

/-- `strContainsSub s pat` models the JavaScript `s.includes(pat)`. -/
def strContainsSub (s pat : String) : Bool :=
  charsContain pat.data s.data

/-! ## Data model (mirrors `prisma/migrations/20251025162521_init/migration.sql`) -/

abbrev Id := Nat

/-- Timestamps, modelled as milliseconds since the epoch. -/
abbrev Time := Nat

inductive UserRole
  | SALES | MANAGER | ADMIN
deriving DecidableEq, Repr

inductive FollowUpType
  | PHONE_CALL | MEETING | VISIT | BUSINESS_DINNER
deriving DecidableEq, Repr

inductive PlanStatus
  | PENDING | DONE
deriving DecidableEq, Repr

/-- A row of the `users` table. -/
structure User where
  id : Id
  name : String
  email : String
  role : UserRole
  createdAt : Time
deriving DecidableEq, Repr

/-- A row of the `customers` table (`company_info`, `email`, `phone`,
`address` are nullable columns). -/
structure Customer where
  id : Id
  name : String
  companyInfo : Option String
  email : Option String
  phone : Option String
  address : Option String
  createdAt : Time
  userId : Id
deriving DecidableEq, Repr

/-- A row of the `follow_up_records` table. -/
structure FollowUpRecord where
  id : Id
  content : String
  followUpType : FollowUpType
  createdAt : Time
  customerId : Id
  userId : Id
deriving DecidableEq, Repr

/-- A row of the `attachments` table (`file_size` is nullable). -/
structure Attachment where
  id : Id
  fileName : String
  fileUrl : String
  fileType : String
  fileSize : Option Nat
  createdAt : Time
  followUpRecordId : Id
deriving DecidableEq, Repr

/-- A row of the `next_step_plans` table (`notes` is nullable). -/
structure NextStepPlan where
  id : Id
  dueDate : Time
  notes : Option String
  status : PlanStatus
  createdAt : Time
  followUpRecordId : Id
  customerId : Id
  userId : Id
deriving DecidableEq, Repr

/-- The database state: the five relational tables. -/
structure DB where
  users : List User
  customers : List Customer
  followUpRecords : List FollowUpRecord
  attachments : List Attachment
  nextStepPlans : List NextStepPlan
deriving DecidableEq, Repr

def emptyDB : DB := ⟨[], [], [], [], []⟩

/-! ## Persisted schema facts (from the init migration SQL)

The migration creates three enums, five tables, one unique index and seven
foreign keys.  The index and foreign-key declarations are transcribed here
verbatim as data so that properties of the persisted schema can be stated. -/

structure UniqueIndexDef where
  indexName : String
  table : String
  columns : List String
deriving DecidableEq, Repr

inductive RefAction
  | cascade
deriving DecidableEq, Repr

structure ForeignKeyDef where
  table : String
  column : String
  refTable : String
  refColumn : String
  onDelete : RefAction
deriving DecidableEq, Repr

/-- Every `CREATE UNIQUE INDEX` statement in the init migration.  The only
one is `users_email_key` on `users(email)`. -/
def migrationUniqueIndexes : List UniqueIndexDef :=
  [⟨"users_email_key", "users", ["email"]⟩]

/-- Every `ADD CONSTRAINT ... FOREIGN KEY` statement in the init migration. -/
def migrationForeignKeys : List ForeignKeyDef :=
  [⟨"customers", "user_id", "users", "id", .cascade⟩,
   ⟨"follow_up_records", "customer_id", "customers", "id", .cascade⟩,
   ⟨"follow_up_records", "user_id", "users", "id", .cascade⟩,
   ⟨"attachments", "follow_up_record_id", "follow_up_records", "id", .cascade⟩,
   ⟨"next_step_plans", "follow_up_record_id", "follow_up_records", "id", .cascade⟩,
   ⟨"next_step_plans", "customer_id", "customers", "id", .cascade⟩,
   ⟨"next_step_plans", "user_id", "users", "id", .cascade⟩]

/-! ## File upload validation (`validateFile` in the upload route) -/

/-- The `ALLOWED_FILE_TYPES` constant from the upload route. -/
def ALLOWED_FILE_TYPES : List String :=
  ["image/jpeg",
   "image/png",
   "image/gif",
   "image/webp",
   "application/pdf",
   "application/msword",
   "application/vnd.openxmlformats-officedocument.wordprocessingml.document",
   "application/vnd.ms-excel",
   "application/vnd.openxmlformats-officedocument.spreadsheetml.sheet",
   "text/plain"]

/-- `MAX_FILE_SIZE = 5 * 1024 * 1024` (5MB). -/
def MAX_FILE_SIZE : Nat := 5 * 1024 * 1024

/-- The observable part of a browser `File` object: its MIME type
(`file.type`) and byte size (`file.size`). -/
structure UploadFile where
  fileName : String
  mimeType : String
  size : Nat
deriving DecidableEq, Repr

/-- Result shape of `validateFile`: `{ isValid: boolean; error?: string }`. -/
structure FileCheckResult where
  isValid : Bool
  error : Option String
deriving DecidableEq, Repr

/-- The type-mismatch message (in the source the allow-list is interpolated
into the string with `join`). -/
def fileTypeErrorMsg : String :=
  "不支持的文件类型。支持的类型: " ++ String.intercalate ", " ALLOWED_FILE_TYPES

/-- The oversize message (`MAX_FILE_SIZE / 1024 / 1024` evaluates to `5`). -/
def fileSizeErrorMsg : String := "文件大小不能超过 5MB"

/-- `validateFile` from the upload route: reject a MIME type outside the
allow-list, then reject a size strictly above `MAX_FILE_SIZE`. -/
def validateFile (file : UploadFile) : FileCheckResult :=
  if ¬ (ALLOWED_FILE_TYPES.contains file.mimeType) then
    ⟨false, some fileTypeErrorMsg⟩
  else if file.size > MAX_FILE_SIZE then
    ⟨false, some fileSizeErrorMsg⟩
  else
    ⟨true, none⟩

/-! ## Database error translation (`handleDatabaseError` in `lib/prisma.ts`) -/

/-- A JavaScript thrown value as seen by `handleDatabaseError`: either an
`Error` instance carrying a message, or any other thrown value. -/
inductive ThrownValue
  | err (message : String)
  | nonError
deriving DecidableEq, Repr

def uniqueFriendlyMsg : String := "数据已存在，请勿重复提交"
def fkFriendlyMsg : String := "关联数据不存在，请检查相关记录"
def notFoundFriendlyMsg : String := "要更新的记录不存在"
def genericDbFailureMsg : String := "数据库操作失败，请稍后重试"

/-- `handleDatabaseError` from `lib/prisma.ts`.  For an `Error` instance it
checks three known substrings and otherwise returns `error.message`
unchanged; the generic fallback is only reached for non-`Error` values. -/
def handleDatabaseError : ThrownValue → String
  | .err message =>
    if strContainsSub message "Unique constraint" then uniqueFriendlyMsg
    else if strContainsSub message "Foreign key constraint" then fkFriendlyMsg
    else if strContainsSub message "Record to update does not exist" then notFoundFriendlyMsg
    else message
  | .nonError => genericDbFailureMsg

/-! ## Zod validation predicates

`z.string().email()` matches a regular expression over the local part and a
dot-separated domain whose final label is at least two letters; the checks
below render that shape over `List Char`.  `z.string().regex(/^1[3-9]\d{9}$/)`
is rendered exactly. -/

/-- Characters allowed anywhere in the local part of an email address. -/
def emailLocalChar (c : Char) : Bool :=
  c.isAlphanum || c = '_' || c = '+' || c = '-' || c = '.' || c = Char.ofNat 39

/-- Characters allowed as the final character of the local part (no dot). -/
def emailLocalEndChar (c : Char) : Bool :=
  c.isAlphanum || c = '_' || c = '+' || c = '-'

/-- A non-final domain label: nonempty, starts alphanumeric, then
alphanumeric or hyphen. -/
def emailDomainLabelOk : List Char → Bool
  | [] => false
  | c :: cs => c.isAlphanum && cs.all (fun d => d.isAlphanum || d = '-')

/-- The final domain label: at least two letters. -/
def emailTldOk (cs : List Char) : Bool :=
  2 ≤ cs.length && cs.all Char.isAlpha

def emailLocalOk (cs : List Char) : Bool :=
  match cs with
  | [] => false
  | c :: rest =>
    c ≠ '.' && (c :: rest).all emailLocalChar && ¬ charsContain ['.', '.'] (c :: rest) &&
      emailLocalEndChar ((c :: rest).getLast (by simp))

/-- Split a character list on a separator (the semantics of
`String.split`, rendered structurally). -/
def splitCharsOn (sep : Char) : List Char → List (List Char)
  | [] => [[]]
  | c :: cs =>
    if c = sep then [] :: splitCharsOn sep cs
    else
      match splitCharsOn sep cs with
      | [] => [[c]]
      | h :: t => (c :: h) :: t

def emailDomainOk (cs : List Char) : Bool :=
  match (splitCharsOn '.' cs).reverse with
  | [] => false
  | [_] => false
  | tld :: rest => emailTldOk tld && rest.all emailDomainLabelOk

/-- Rendering of `z.string().email()`. -/
def isValidEmail (s : String) : Bool :=
  match splitCharsOn '@' s.data with
  | [localPart, domainPart] => emailLocalOk localPart && emailDomainOk domainPart
  | _ => false

/-- Rendering of the phone pattern `^1[3-9]\d{9}$`. -/
def isValidPhone (s : String) : Bool :=
  match s.data with
  | '1' :: d :: rest => ('3' ≤ d && d ≤ '9') && rest.length = 9 && rest.all Char.isDigit
  | _ => false

/-- Abstraction of `z.string().url()`: the URL shape is not load-bearing for
any claim, so only the presence of a scheme separator is rendered. -/
def isValidUrl (s : String) : Bool :=
  strContainsSub s "://"

/-- JavaScript `s || null` on a string: the empty string is falsy. -/
def jsOrNull (s : String) : Option String :=
  if s = "" then none else some s

/-! ## Default-user resolution (`getOrCreateDefaultUser` in the customers route) -/

def defaultUserEmail : String := "wanglei@company.com"
def defaultUserName : String := "王磊"

/-- Look up the sentinel user by its fixed email; create it with the fixed
name and SALES role when absent.  Returns the user id and the (possibly
extended) database. -/
def getOrCreateDefaultUser (db : DB) (freshUserId : Id) (now : Time) : Id × DB :=
  match db.users.find? (fun u => u.email = defaultUserEmail) with
  | some u => (u.id, db)
  | none =>
    (freshUserId,
     { db with users := db.users ++ [⟨freshUserId, defaultUserName, defaultUserEmail, .SALES, now⟩] })

/-! ## Customer creation (`POST /api/customers`) -/

/-- The body accepted by `createCustomerSchema`. -/
structure CreateCustomerInput where
  name : String
  companyInfo : Option String
  email : Option String
  phone : Option String
  address : Option String
deriving DecidableEq, Repr

/-- `createCustomerSchema.parse` succeeds exactly when every field check
passes (name 1..100 chars, companyInfo up to 200, email valid and up to 100,
phone matching the mobile pattern, address up to 300). -/
def createCustomerValid (r : CreateCustomerInput) : Bool :=
  (1 ≤ r.name.length && r.name.length ≤ 100) &&
  (match r.companyInfo with | some s => s.length ≤ 200 | none => true) &&
  (match r.email with | some s => isValidEmail s && s.length ≤ 100 | none => true) &&
  (match r.phone with | some s => isValidPhone s | none => true) &&
  (match r.address with | some s => s.length ≤ 300 | none => true)

def emailConflictMsg : String := "该邮箱地址已被使用"
def phoneConflictMsg : String := "该手机号码已被使用"

inductive CreateCustomerResult
  | validationFailed
  | conflict (message : String)
  | created (c : Customer)
deriving DecidableEq, Repr

/-- The `findFirst` pre-check of the create handler: is the requested email
already carried by some customer? -/
def createEmailTaken (db : DB) (r : CreateCustomerInput) : Bool :=
  match r.email with
  | some e => db.customers.any (fun c => c.email = some e)
  | none => false

/-- The `findFirst` pre-check of the create handler for the phone. -/
def createPhoneTaken (db : DB) (r : CreateCustomerInput) : Bool :=
  match r.phone with
  | some p => db.customers.any (fun c => c.phone = some p)
  | none => false

/-- The `POST /api/customers` handler: validate, resolve the default user,
pre-check email then phone against existing customers, then insert. -/
def createCustomer (db : DB) (r : CreateCustomerInput)
    (freshUserId freshCustomerId : Id) (now : Time) : CreateCustomerResult × DB :=
  if createCustomerValid r = false then (.validationFailed, db)
  else
    let resolved := getOrCreateDefaultUser db freshUserId now
    let uid := resolved.1
    let db1 := resolved.2
    if createEmailTaken db1 r then (.conflict emailConflictMsg, db1)
    else if createPhoneTaken db1 r then (.conflict phoneConflictMsg, db1)
    else
      let c : Customer :=
        ⟨freshCustomerId, r.name, r.companyInfo, r.email, r.phone, r.address, now, uid⟩
      (.created c, { db1 with customers := db1.customers ++ [c] })

/-! ## Customer update (`PUT /api/customers/[id]`) -/

/-- The body accepted by `updateCustomerSchema` (all fields optional). -/
structure UpdateCustomerInput where
  name : Option String
  companyInfo : Option String
  email : Option String
  phone : Option String
  address : Option String
deriving DecidableEq, Repr

def updateCustomerValid (r : UpdateCustomerInput) : Bool :=
  (match r.name with | some s => 1 ≤ s.length && s.length ≤ 100 | none => true) &&
  (match r.companyInfo with | some s => s.length ≤ 200 | none => true) &&
  (match r.email with | some s => isValidEmail s && s.length ≤ 100 | none => true) &&
  (match r.phone with | some s => isValidPhone s | none => true) &&
  (match r.address with | some s => s.length ≤ 300 | none => true)

def emailConflictOtherMsg : String := "该邮箱地址已被其他客户使用"
def phoneConflictOtherMsg : String := "该手机号码已被其他客户使用"
def customerNotFoundMsg : String := "客户不存在"

/-- The update spread: `name` only when truthy, the other fields whenever
supplied, with `x || null` coercing the empty string to NULL. -/
def applyCustomerUpdate (r : UpdateCustomerInput) (c : Customer) : Customer :=
  { c with
    name := match r.name with
      | some n => if n = "" then c.name else n
      | none => c.name
    companyInfo := match r.companyInfo with
      | some s => jsOrNull s
      | none => c.companyInfo
    email := match r.email with
      | some s => jsOrNull s
      | none => c.email
    phone := match r.phone with
      | some s => jsOrNull s
      | none => c.phone
    address := match r.address with
      | some s => jsOrNull s
      | none => c.address }

inductive UpdateCustomerResult
  | validationFailed
  | notFound
  | conflict (message : String)
  | updated (c : Customer)
deriving DecidableEq, Repr

/-- The duplicate-email check of the update handler: run only when the
supplied email is truthy and differs from the current value, and only
against customers other than `cid`. -/
def updateEmailConflict (db : DB) (cid : Id) (c : Customer) (r : UpdateCustomerInput) : Bool :=
  match r.email with
  | some e =>
    e ≠ "" && some e ≠ c.email &&
      db.customers.any (fun c2 => c2.email = some e && c2.id ≠ cid)
  | none => false

/-- The duplicate-phone check of the update handler. -/
def updatePhoneConflict (db : DB) (cid : Id) (c : Customer) (r : UpdateCustomerInput) : Bool :=
  match r.phone with
  | some p =>
    p ≠ "" && some p ≠ c.phone &&
      db.customers.any (fun c2 => c2.phone = some p && c2.id ≠ cid)
  | none => false

def updateCustomer (db : DB) (cid : Id) (r : UpdateCustomerInput) :
    UpdateCustomerResult × DB :=
  if updateCustomerValid r = false then (.validationFailed, db)
  else
    match db.customers.find? (fun c => c.id = cid) with
    | none => (.notFound, db)
    | some c =>
      if updateEmailConflict db cid c r then (.conflict emailConflictOtherMsg, db)
      else if updatePhoneConflict db cid c r then (.conflict phoneConflictOtherMsg, db)
      else
        (.updated (applyCustomerUpdate r c),
         { db with customers :=
            db.customers.map (fun x => if x.id = cid then applyCustomerUpdate r x else x) })

/-! ## Customer deletion (`DELETE /api/customers/[id]`)

The handler issues a single `customer.delete`; the dependent rows disappear
through the `ON DELETE CASCADE` foreign keys of the migration:
`follow_up_records.customer_id`, `attachments.follow_up_record_id`,
`next_step_plans.follow_up_record_id` and `next_step_plans.customer_id`. -/

def cascadeDeleteCustomer (db : DB) (cid : Id) : DB :=
  let deadRecIds := (db.followUpRecords.filter (fun fr => fr.customerId = cid)).map (·.id)
  { db with
    customers := db.customers.filter (fun c => c.id ≠ cid)
    followUpRecords := db.followUpRecords.filter (fun fr => fr.customerId ≠ cid)
    attachments := db.attachments.filter (fun a => ¬ deadRecIds.contains a.followUpRecordId)
    nextStepPlans := db.nextStepPlans.filter
      (fun p => p.customerId ≠ cid ∧ ¬ deadRecIds.contains p.followUpRecordId) }

inductive DeleteCustomerResult
  | notFound
  | deleted
deriving DecidableEq, Repr

def deleteCustomer (db : DB) (cid : Id) : DeleteCustomerResult × DB :=
  match db.customers.find? (fun c => c.id = cid) with
  | none => (.notFound, db)
  | some _ => (.deleted, cascadeDeleteCustomer db cid)

/-! ## Customer detail (`GET /api/customers/[id]`) -/

structure CustomerDetail where
  id : Id
  name : String
  companyInfo : Option String
  email : Option String
  phone : Option String
  address : Option String
  createdAt : Time
  followUpCount : Nat
  nextStepPlanCount : Nat
deriving DecidableEq, Repr

/-- The detail handler: `findUnique` plus `_count` of the related records
and plans; a missing customer yields the distinct not-found error. -/
def getCustomerDetail (db : DB) (cid : Id) : Except String CustomerDetail :=
  match db.customers.find? (fun c => c.id = cid) with
  | none => .error customerNotFoundMsg
  | some c =>
    .ok ⟨c.id, c.name, c.companyInfo, c.email, c.phone, c.address, c.createdAt,
      (db.followUpRecords.filter (fun fr => fr.customerId = cid)).length,
      (db.nextStepPlans.filter (fun p => p.customerId = cid)).length⟩

/-! ## Follow-up listing (`GET /api/customers/[id]/followups`)

Prisma `orderBy` clauses are modelled with the stable `List.insertionSort`,
which returns a permutation of the rows sorted by the requested key. -/

def attachmentLeAsc (a b : Attachment) : Prop := a.createdAt ≤ b.createdAt

instance : DecidableRel attachmentLeAsc := fun a b => Nat.decLe a.createdAt b.createdAt

instance : IsTotal Attachment attachmentLeAsc := ⟨fun a b => Nat.le_total a.createdAt b.createdAt⟩

instance : IsTrans Attachment attachmentLeAsc := ⟨fun _ _ _ => Nat.le_trans⟩

def planLeDueAsc (a b : NextStepPlan) : Prop := a.dueDate ≤ b.dueDate

instance : DecidableRel planLeDueAsc := fun a b => Nat.decLe a.dueDate b.dueDate

instance : IsTotal NextStepPlan planLeDueAsc := ⟨fun a b => Nat.le_total a.dueDate b.dueDate⟩

instance : IsTrans NextStepPlan planLeDueAsc := ⟨fun _ _ _ => Nat.le_trans⟩

def recordLeDesc (a b : FollowUpRecord) : Prop := b.createdAt ≤ a.createdAt

instance : DecidableRel recordLeDesc := fun a b => Nat.decLe b.createdAt a.createdAt

instance : IsTotal FollowUpRecord recordLeDesc := ⟨fun a b => Nat.le_total b.createdAt a.createdAt⟩

instance : IsTrans FollowUpRecord recordLeDesc := ⟨fun _ _ _ h1 h2 => Nat.le_trans h2 h1⟩

/-- A follow-up record composed with its attachments (ordered by
`createdAt` ascending) and its next-step plans (ordered by `dueDate`
ascending). -/
structure FollowUpItem where
  record : FollowUpRecord
  attachments : List Attachment
  nextStepPlans : List NextStepPlan
deriving DecidableEq, Repr

def composeFollowUpItem (db : DB) (fr : FollowUpRecord) : FollowUpItem :=
  ⟨fr,
   List.insertionSort attachmentLeAsc (db.attachments.filter (fun a => a.followUpRecordId = fr.id)),
   List.insertionSort planLeDueAsc (db.nextStepPlans.filter (fun p => p.followUpRecordId = fr.id))⟩

/-- The listing handler: verify the customer exists, then return its records
ordered by `createdAt` descending, each composed with ordered attachments and
plans.  The handler issues only read queries, so it returns no successor
database state. -/
def listFollowUps (db : DB) (cid : Id) : Except String (List FollowUpItem) :=
  match db.customers.find? (fun c => c.id = cid) with
  | none => .error customerNotFoundMsg
  | some _ =>
    .ok ((List.insertionSort recordLeDesc
        (db.followUpRecords.filter (fun fr => fr.customerId = cid))).map
      (composeFollowUpItem db))

/-! ## Follow-up creation (`POST /api/customers/[id]/followups`) -/

structure AttachmentInput where
  fileName : String
  fileUrl : String
  fileType : String
  fileSize : Option Nat
deriving DecidableEq, Repr

/-- The `nextStep` body; the ISO datetime string has already been parsed to a
timestamp (`z.string().datetime()` plus `new Date(...)`). -/
structure NextStepInput where
  dueDate : Time
  notes : Option String
deriving DecidableEq, Repr

structure CreateFollowUpInput where
  content : String
  followUpType : FollowUpType
  attachments : Option (List AttachmentInput)
  nextStep : Option NextStepInput
deriving DecidableEq, Repr

/-- `createFollowUpSchema.parse`: content 1..2000 chars, attachment URLs
well-formed, next-step notes up to 500 chars. -/
def createFollowUpValid (r : CreateFollowUpInput) : Bool :=
  (1 ≤ r.content.length && r.content.length ≤ 2000) &&
  (match r.attachments with
    | some l => l.all (fun a => isValidUrl a.fileUrl)
    | none => true) &&
  (match r.nextStep with
    | some ns => match ns.notes with | some n => n.length ≤ 500 | none => true
    | none => true)

/-- The rows inserted by `attachment.createMany`, pairing each requested
attachment with a generated id. -/
def mkAttachmentRows (attIds : List Id) (l : List AttachmentInput) (recId : Id) (now : Time) :
    List Attachment :=
  (attIds.zip l).map (fun p => ⟨p.1, p.2.fileName, p.2.fileUrl, p.2.fileType, p.2.fileSize, now, recId⟩)

/-- A failure injected inside the `$transaction` callback, between the write
steps of §4.5. -/
inductive TxFailurePoint
  | afterRecordInsert
  | afterAttachmentInsert
  | afterPlanInsert
deriving DecidableEq, Repr

/-- The `$transaction` callback: insert the record, bulk-insert the
attachments when supplied and non-empty, insert the PENDING plan when
supplied, then re-read the composed record.  A thrown error aborts the
callback; the caller then rolls every write back. -/
def followUpTxBody (db : DB) (cid uid : Id) (r : CreateFollowUpInput)
    (recId planId : Id) (attIds : List Id) (now : Time)
    (failAt : Option TxFailurePoint) : Except Unit (DB × Option FollowUpItem) :=
  let fr : FollowUpRecord := ⟨recId, r.content, r.followUpType, now, cid, uid⟩
  let db1 := { db with followUpRecords := db.followUpRecords ++ [fr] }
  if failAt = some .afterRecordInsert then .error ()
  else
    let db2 := match r.attachments with
      | some l =>
        if 0 < l.length then
          { db1 with attachments := db1.attachments ++ mkAttachmentRows attIds l recId now }
        else db1
      | none => db1
    if failAt = some .afterAttachmentInsert then .error ()
    else
      let db3 := match r.nextStep with
        | some ns =>
          { db2 with nextStepPlans :=
              db2.nextStepPlans ++ [⟨planId, ns.dueDate, ns.notes, .PENDING, now, recId, cid, uid⟩] }
        | none => db2
      if failAt = some .afterPlanInsert then .error ()
      else
        .ok (db3, (db3.followUpRecords.find? (fun x => x.id = recId)).map (composeFollowUpItem db3))

inductive CreateFollowUpResult
  | validationFailed
  | customerNotFound
  | noUserAvailable
  | dbError
  | created (item : FollowUpItem)
deriving DecidableEq, Repr

/-- The `POST` handler: validate, verify the customer, pick the first user
found, run the transaction (rolling back to the original state when the
callback throws), then check the re-read result.  The null re-read check in
the source runs after the transaction has committed. -/
def createFollowUp (db : DB) (cid : Id) (r : CreateFollowUpInput)
    (recId planId : Id) (attIds : List Id) (now : Time)
    (failAt : Option TxFailurePoint) : CreateFollowUpResult × DB :=
  if createFollowUpValid r = false then (.validationFailed, db)
  else
    match db.customers.find? (fun c => c.id = cid) with
    | none => (.customerNotFound, db)
    | some _ =>
      match db.users.head? with
      | none => (.noUserAvailable, db)
      | some u =>
        match followUpTxBody db cid u.id r recId planId attIds now failAt with
        | .error _ => (.dbError, db)
        | .ok (db3, none) => (.dbError, db3)
        | .ok (db3, some item) => (.created item, db3)

/-! ## Customer list aggregation (`getCustomers` in the customers page) -/

/-- The shape the page builds per customer: the customer plus its single
newest follow-up record, when one exists. -/
structure CustomerListItem where
  id : Id
  name : String
  createdAt : Time
  latest : Option FollowUpRecord
deriving DecidableEq, Repr

def toListItem (db : DB) (c : Customer) : CustomerListItem :=
  ⟨c.id, c.name, c.createdAt,
   (List.insertionSort recordLeDesc
     (db.followUpRecords.filter (fun fr => fr.customerId = c.id))).head?⟩

/-- The comparator passed to `Array.prototype.sort`: both have follow-ups →
newest follow-up first; only one has → it first; neither has → newest
customer first. -/
def customerCompare (a b : CustomerListItem) : Int :=
  match a.latest, b.latest with
  | some la, some lb => (lb.createdAt : Int) - (la.createdAt : Int)
  | some _, none => -1
  | none, some _ => 1
  | none, none => (b.createdAt : Int) - (a.createdAt : Int)

/-- `a` may precede `b` exactly when the comparator does not order `b`
strictly before `a`. -/
def customerLe (a b : CustomerListItem) : Prop :=
  customerCompare a b ≤ 0

instance : DecidableRel customerLe := fun a b => Int.decLe (customerCompare a b) 0

/-- `getCustomers`: read every customer with its newest follow-up record and
sort client-side with the two-tier comparator (`Array.prototype.sort` is a
stable sort of the array by the comparator). -/
def getCustomers (db : DB) : List CustomerListItem :=
  List.insertionSort customerLe (db.customers.map (toListItem db))

/-! ## Database seeding endpoints

`/api/init-db` (the guarded variant): secret check, then idempotence check
against the seed marker (the default user), then the time window, then the
seeding body.  The seeding body itself upserts the marker user and inserts
the sample customers and follow-ups; only the marker write matters for the
guard properties, so the sample rows are carried as an abstract batch of rows
appended to the database. -/

def oneHourMs : Nat := 60 * 60 * 1000

/-- `isDatabaseInitialized`: the seed marker is the default user row. -/
def isDatabaseInitialized (db : DB) : Bool :=
  db.users.any (fun u => u.email = defaultUserEmail)

/-- `isValidTimeWindow`: within one hour of the deployment time; a missing
deployment time defaults to the current time. -/
def isValidTimeWindow (deployTime : Option Time) (now : Time) : Bool :=
  ((now : Int) - (deployTime.getD now : Int)) ≤ (oneHourMs : Int)

/-- The sample rows inserted by `performInitialization` beyond the marker
user: five customers, three follow-up records each, one plan per VISIT
record.  Their field values do not bear on any claim, so the batch is a
parameter of the seeding step. -/
structure SeedBatch where
  customers : List Customer
  followUpRecords : List FollowUpRecord
  nextStepPlans : List NextStepPlan
deriving DecidableEq, Repr

/-- `performInitialization`: upsert the marker user
(`wanglei@company.com`), then insert the sample rows. -/
def performInitialization (db : DB) (freshUserId : Id) (now : Time) (batch : SeedBatch) : DB :=
  let db1 :=
    match db.users.find? (fun u => u.email = defaultUserEmail) with
    | some _ => db
    | none =>
      { db with users :=
          db.users ++ [(⟨freshUserId, defaultUserName, defaultUserEmail, .SALES, now⟩ : User)] }
  { db1 with
    customers := db1.customers ++ batch.customers
    followUpRecords := db1.followUpRecords ++ batch.followUpRecords
    nextStepPlans := db1.nextStepPlans ++ batch.nextStepPlans }

inductive InitDbResult
  | unauthorized
  | alreadyInitialized
  | timedOut
  | initialized
deriving DecidableEq, Repr

/-- The `POST /api/init-db` handler.  `secret` is the query parameter or body
field; `expectedSecret` is `SEED_SECRET` (defaulting to a fixed literal). -/
def initDbPost (db : DB) (secret : Option String) (expectedSecret : String)
    (deployTime : Option Time) (now : Time) (freshUserId : Id) (batch : SeedBatch) :
    InitDbResult × DB :=
  if secret ≠ some expectedSecret then (.unauthorized, db)
  else if isDatabaseInitialized db then (.alreadyInitialized, db)
  else if ¬ isValidTimeWindow deployTime now then (.timedOut, db)
  else (.initialized, performInitialization db freshUserId now batch)

/-! ## The raw-SQL init-db variant

This duplicate route reads no secret at all.  It first runs a raw
`SELECT EXISTS(...)` to test whether the `users` table exists; the query
returns an array of rows, and `if (tableExists)` tests the truthiness of that
array, which is true whenever the query succeeds.  Only when the existence
query throws (the error is caught and logged) does control fall through to
the raw `CREATE TABLE` statements. -/

def rawInitTables : List String :=
  ["users", "customers", "follow_up_records", "attachments", "next_step_plans"]

inductive RawInitResult
  | alreadySetup
  | tablesCreated
  | failed
deriving DecidableEq, Repr

/-- The raw-SQL `POST` handler, over the list of table names present in the
schema.  `existenceQuery = some rows` models the raw query succeeding with
result `rows`; `none` models the query throwing. -/
def rawInitDbPost (existenceQuery : Option (List Bool)) (schema : List String) :
    RawInitResult × List String :=
  match existenceQuery with
  | some _ => (.alreadySetup, schema)
  | none =>
    if schema.any (fun t => rawInitTables.contains t) then (.failed, schema)
    else (.tablesCreated, schema ++ rawInitTables)

/-! ## Customer-table uniqueness invariant and reachable states -/

/-- Any two distinct customer rows (rows at different ids; the primary key
makes ids unique) differ on every non-null email and every non-null phone. -/
def CustomerRowsDistinct (db : DB) : Prop :=
  (db.customers.map (fun c => c.id)).Nodup ∧
  ∀ a ∈ db.customers, ∀ b ∈ db.customers, a.id ≠ b.id →
    (∀ e, a.email = some e → b.email ≠ some e) ∧
    (∀ p, a.phone = some p → b.phone ≠ some p)

/-- One customer-table mutation, as exposed by the HTTP surface.  The
freshness side conditions on `create` model the primary-key constraint (the
runtime generates globally unique cuid values). -/
inductive Step : DB → DB → Prop
  | create (db : DB) (r : CreateCustomerInput) (freshUserId freshCustomerId : Id) (now : Time)
      (hfc : ∀ c ∈ db.customers, c.id ≠ freshCustomerId) :
      Step db (createCustomer db r freshUserId freshCustomerId now).2
  | update (db : DB) (cid : Id) (r : UpdateCustomerInput) :
      Step db (updateCustomer db cid r).2
  | delete (db : DB) (cid : Id) :
      Step db (deleteCustomer db cid).2

/-- Database states reachable from the empty database through the
customer-table mutations. -/
inductive Reachable : DB → Prop
  | empty : Reachable emptyDB
  | step {db db2 : DB} : Reachable db → Step db db2 → Reachable db2

/-! ## The two-tier ordering relation of the customer list -/

/-- The ordering the specification ascribes to the customer list: a customer
with follow-ups never comes after one without; two customers with follow-ups
are ordered by newest follow-up descending; two without by their own
creation time descending. -/
def listTierOrdered (a b : CustomerListItem) : Prop :=
  match a.latest, b.latest with
  | some la, some lb => lb.createdAt ≤ la.createdAt
  | some _, none => True
  | none, some _ => False
  | none, none => b.createdAt ≤ a.createdAt

/-! ## Concrete databases used as witnesses -/

def exUser : User := ⟨1, "王磊", "wanglei@company.com", .SALES, 0⟩

/-- Customer A (created T=1, follow-up at T=10), customer B (created T=2,
follow-up at T=20), customer C (created T=5, no follow-ups): the example of
the customer-list ordering claim. -/
def exListDb : DB :=
  ⟨[exUser],
   [⟨1, "A", none, none, none, none, 1, 1⟩,
    ⟨2, "B", none, none, none, none, 2, 1⟩,
    ⟨3, "C", none, none, none, none, 5, 1⟩],
   [⟨11, "callA", .PHONE_CALL, 10, 1, 1⟩,
    ⟨12, "callB", .PHONE_CALL, 20, 2, 1⟩],
   [], []⟩

/-- A customer with two follow-up records, each carrying one attachment and
one next-step plan: the example of the cascade-delete claim. -/
def exDeleteDb : DB :=
  ⟨[exUser],
   [⟨1, "张总", none, none, none, none, 1, 1⟩],
   [⟨10, "first", .MEETING, 10, 1, 1⟩,
    ⟨11, "second", .VISIT, 20, 1, 1⟩],
   [⟨20, "a.pdf", "https://blob/a.pdf", "pdf", some 100, 11, 10⟩,
    ⟨21, "b.png", "https://blob/b.png", "image", some 200, 21, 11⟩],
   [⟨30, 100, none, .PENDING, 10, 10, 1, 1⟩,
    ⟨31, 200, none, .PENDING, 20, 11, 1, 1⟩]⟩

/-- One user and one customer: the starting state for the follow-up-creation
and follow-up-listing witnesses. -/
def exBaseDb : DB :=
  ⟨[exUser],
   [⟨1, "张总", none, none, none, none, 1, 1⟩],
   [⟨10, "earlier", .MEETING, 10, 1, 1⟩,
    ⟨11, "later", .VISIT, 20, 1, 1⟩],
   [⟨20, "a.pdf", "https://blob/a.pdf", "pdf", some 100, 12, 10⟩,
    ⟨21, "b.png", "https://blob/b.png", "image", some 200, 11, 10⟩],
   [⟨30, 200, none, .PENDING, 10, 10, 1, 1⟩,
    ⟨31, 100, none, .PENDING, 20, 10, 1, 1⟩]⟩

/-- A follow-up-creation request with one attachment and a next-step. -/
def exFollowUpReq : CreateFollowUpInput :=
  ⟨"Called.", .PHONE_CALL,
   some [⟨"a.pdf", "https://blob/a.pdf", "pdf", some 100⟩],
   some ⟨1000, some "prepare quote"⟩⟩

/-- A valid customer-creation request carrying an email and a phone. -/
def exCreateReq : CreateCustomerInput :=
  ⟨"张总", none, some "zhang@example.com", some "13800138000", none⟩

/-- A second valid request carrying the same email. -/
def exCreateReqSameEmail : CreateCustomerInput :=
  ⟨"李总", none, some "zhang@example.com", none, none⟩

/-- A second valid request carrying the same phone and no email. -/
def exCreateReqSamePhone : CreateCustomerInput :=
  ⟨"李总", none, none, some "13800138000", none⟩

/-- A valid request with a fresh email and phone. -/
def exCreateReq2 : CreateCustomerInput :=
  ⟨"王董", none, some "wang@example.com", some "13700137000", none⟩

/-- A customer holding an email and phone, used for the update witnesses. -/
def exUpdDb : DB :=
  ⟨[exUser],
   [⟨1, "张总", none, some "zhang@example.com", some "13800138000", none, 1, 1⟩,
    ⟨2, "李总", none, some "li@example.com", some "13900139000", none, 2, 1⟩],
   [], [], []⟩

/-- An update that re-submits the same email and phone the customer already
holds. -/
def exUpdReqSame : UpdateCustomerInput :=
  ⟨some "张总", none, some "zhang@example.com", some "13800138000", none⟩

/-! ## Helper lemmas -/

theorem getOrCreateDefaultUser_customers (db : DB) (f : Id) (t : Time) :
    ((getOrCreateDefaultUser db f t).2).customers = db.customers := by
  unfold getOrCreateDefaultUser
  cases db.users.find? (fun u => u.email = defaultUserEmail) <;> rfl

theorem getOrCreateDefaultUser_hasDefault (db : DB) (f : Id) (t : Time) :
    ∃ u ∈ ((getOrCreateDefaultUser db f t).2).users, u.email = defaultUserEmail := by
  unfold getOrCreateDefaultUser
  cases hf : db.users.find? (fun u => u.email = defaultUserEmail) with
  | none =>
    refine ⟨⟨f, defaultUserName, defaultUserEmail, .SALES, t⟩, ?_, rfl⟩
    simp
  | some u =>
    refine ⟨u, List.mem_of_find?_eq_some hf, ?_⟩
    have := List.find?_some hf
    simpa using this

theorem getOrCreateDefaultUser_of_default (db : DB) (f : Id) (t : Time)
    (h : ∃ u ∈ db.users, u.email = defaultUserEmail) :
    (getOrCreateDefaultUser db f t).2 = db := by
  unfold getOrCreateDefaultUser
  cases hf : db.users.find? (fun u => u.email = defaultUserEmail) with
  | none =>
    obtain ⟨u, hu, he⟩ := h
    have := List.find?_eq_none.mp hf u hu
    simp [he] at this
  | some u => rfl

/-! ## Claim C7: file upload validation -/

/-- Claim C7: file upload rejects a file exactly when its MIME type is not in
the allow-list or its size exceeds 5MB; a type violation and a size violation
yield distinct messages naming the offending constraint, and every file with
an allowed type and size at most 5MB passes. -/
theorem validateFile_characterization :
    (∀ f : UploadFile,
      ((validateFile f).isValid = true ↔
        (f.mimeType ∈ ALLOWED_FILE_TYPES ∧ f.size ≤ MAX_FILE_SIZE)) ∧
      (f.mimeType ∉ ALLOWED_FILE_TYPES →
        validateFile f = ⟨false, some fileTypeErrorMsg⟩) ∧
      (f.mimeType ∈ ALLOWED_FILE_TYPES → MAX_FILE_SIZE < f.size →
        validateFile f = ⟨false, some fileSizeErrorMsg⟩)) ∧
    fileTypeErrorMsg ≠ fileSizeErrorMsg := by
  constructor
  · intro f
    by_cases hm : f.mimeType ∈ ALLOWED_FILE_TYPES
    · by_cases hs : f.size ≤ MAX_FILE_SIZE
      · refine ⟨?_, ?_, ?_⟩
        · simp [validateFile, hm, hs, Nat.not_lt.mpr hs]
        · intro h; exact absurd hm h
        · intro _ h; omega
      · refine ⟨?_, ?_, ?_⟩
        · simp [validateFile, hm, Nat.lt_of_not_le hs, hs]
        · intro h; exact absurd hm h
        · intro _ h; simp [validateFile, hm, h]
    · refine ⟨?_, ?_, ?_⟩
      · simp [validateFile, hm]
      · intro _; simp [validateFile, hm]
      · intro h; exact absurd h hm
  · decide

/-- Witness for C7: a Windows executable MIME type is rejected with the
type message; the theorem applied at a concrete file. -/
theorem validateFile_characterization_witness :
    validateFile ⟨"virus.exe", "application/x-msdownload", 2 * 1024 * 1024⟩ =
      ⟨false, some fileTypeErrorMsg⟩ :=
  (validateFile_characterization.1 _).2.1 (by decide)

/-! ## Claim C4: database error translation -/

/-- Counterexample for C4: an `Error` whose message matches no known
substring — here a realistic connection failure — is returned verbatim to
the client, not replaced by the generic fallback. -/
theorem handleDatabaseError_passthrough :
    handleDatabaseError (.err "connect ECONNREFUSED 127.0.0.1:5432") =
      "connect ECONNREFUSED 127.0.0.1:5432" ∧
    "connect ECONNREFUSED 127.0.0.1:5432" ≠ genericDbFailureMsg := by
  constructor
  · rfl
  · decide

/-- Amended C4: the translation maps the three known substrings to fixed
friendly messages and maps a non-`Error` thrown value to the generic
fallback, but an `Error` whose message matches no known substring is
returned verbatim. -/
theorem handleDatabaseError_amended :
    (∀ msg, strContainsSub msg "Unique constraint" = true →
      handleDatabaseError (.err msg) = uniqueFriendlyMsg) ∧
    (∀ msg, strContainsSub msg "Unique constraint" = false →
      strContainsSub msg "Foreign key constraint" = true →
      handleDatabaseError (.err msg) = fkFriendlyMsg) ∧
    (∀ msg, strContainsSub msg "Unique constraint" = false →
      strContainsSub msg "Foreign key constraint" = false →
      strContainsSub msg "Record to update does not exist" = true →
      handleDatabaseError (.err msg) = notFoundFriendlyMsg) ∧
    (∀ msg, strContainsSub msg "Unique constraint" = false →
      strContainsSub msg "Foreign key constraint" = false →
      strContainsSub msg "Record to update does not exist" = false →
      handleDatabaseError (.err msg) = msg) ∧
    handleDatabaseError .nonError = genericDbFailureMsg := by
  refine ⟨?_, ?_, ?_, ?_, rfl⟩ <;>
    intro msg <;> intros <;> simp [handleDatabaseError, *]

/-- Witness for the amended C4 at concrete messages. -/
theorem handleDatabaseError_amended_witness :
    handleDatabaseError (.err "Unique constraint failed on the fields: (`email`)") =
      uniqueFriendlyMsg ∧
    handleDatabaseError (.err "boom") = "boom" :=
  ⟨handleDatabaseError_amended.1 _ (by decide),
   handleDatabaseError_amended.2.2.2.1 _ (by decide) (by decide) (by decide)⟩

/-! ## Claim C2: customer email and phone uniqueness -/

/-- Counterexample for C2: the init migration declares no unique index on
the `customers` table at all — its single unique index is `users_email_key`
— so customer email and phone uniqueness is not enforced by a unique index
in the persisted schema. -/
theorem migration_no_customer_unique_index :
    (∀ ix ∈ migrationUniqueIndexes, ix.table ≠ "customers") ∧
    migrationUniqueIndexes =
      [⟨"users_email_key", "users", ["email"]⟩] := by
  constructor
  · decide
  · rfl

/-! ## Claim C9: cascade delete -/

/-- Claim C9: deleting an existing customer removes it together with its
follow-up records, the attachments and plans of those records, and the plans
referencing the customer, after which the detail fetch reports not-found;
deleting a missing id reports not-found and changes nothing. -/
theorem deleteCustomer_cascades :
    (∀ db cid c, db.customers.find? (fun x => x.id = cid) = some c →
      (deleteCustomer db cid).1 = .deleted ∧
      (∀ c2 ∈ (deleteCustomer db cid).2.customers, c2.id ≠ cid) ∧
      (∀ fr ∈ (deleteCustomer db cid).2.followUpRecords, fr.customerId ≠ cid) ∧
      (∀ a ∈ (deleteCustomer db cid).2.attachments,
        ∀ fr ∈ db.followUpRecords, fr.customerId = cid → a.followUpRecordId ≠ fr.id) ∧
      (∀ p ∈ (deleteCustomer db cid).2.nextStepPlans,
        p.customerId ≠ cid ∧
        ∀ fr ∈ db.followUpRecords, fr.customerId = cid → p.followUpRecordId ≠ fr.id) ∧
      getCustomerDetail (deleteCustomer db cid).2 cid = .error customerNotFoundMsg) ∧
    (∀ db cid, db.customers.find? (fun x => x.id = cid) = none →
      deleteCustomer db cid = (.notFound, db)) := by
  constructor
  · intro db cid c hfind
    have hdel : deleteCustomer db cid = (.deleted, cascadeDeleteCustomer db cid) := by
      simp [deleteCustomer, hfind]
    rw [hdel]
    refine ⟨rfl, ?_, ?_, ?_, ?_, ?_⟩
    · intro c2 hc2
      simp [cascadeDeleteCustomer, List.mem_filter] at hc2
      exact hc2.2
    · intro fr hfr
      simp [cascadeDeleteCustomer, List.mem_filter] at hfr
      exact hfr.2
    · intro a ha fr hfr hcust heq
      simp [cascadeDeleteCustomer, List.mem_filter] at ha
      exact ha.2 fr hfr hcust heq.symm
    · intro p hp
      simp [cascadeDeleteCustomer, List.mem_filter] at hp
      refine ⟨hp.2.1, ?_⟩
      intro fr hfr hcust heq
      exact hp.2.2 fr hfr hcust heq.symm
    · have : ((cascadeDeleteCustomer db cid).customers).find? (fun x => x.id = cid) = none := by
        apply List.find?_eq_none.mpr
        intro x hx
        simp [cascadeDeleteCustomer, List.mem_filter] at hx
        simp [hx.2]
      simp [getCustomerDetail, this]
  · intro db cid hfind
    simp [deleteCustomer, hfind]

/-- Witness for C9: the concrete customer with two follow-up records, one
attachment and one plan each, loses all six dependent rows. -/
theorem deleteCustomer_cascades_witness :
    (deleteCustomer exDeleteDb 1).1 = .deleted ∧
    getCustomerDetail (deleteCustomer exDeleteDb 1).2 1 = .error customerNotFoundMsg ∧
    (deleteCustomer exDeleteDb 1).2.followUpRecords = [] ∧
    (deleteCustomer exDeleteDb 1).2.attachments = [] ∧
    (deleteCustomer exDeleteDb 1).2.nextStepPlans = [] :=
  ⟨(deleteCustomer_cascades.1 exDeleteDb 1
      ⟨1, "张总", none, none, none, none, 1, 1⟩ (by decide)).1,
   (deleteCustomer_cascades.1 exDeleteDb 1
      ⟨1, "张总", none, none, none, none, 1, 1⟩ (by decide)).2.2.2.2.2,
   by decide, by decide, by decide⟩

/-! ## Claim C8: seeding endpoint gating -/

/-- Counterexample for C8: the raw-SQL init-db variant reads no secret at
all, so a request supplying no secret is not answered with an unauthorized
error — it reaches the handler body, and on the path where the existence
query throws it performs the `CREATE TABLE` writes. -/
theorem rawInitDb_ungated :
    (rawInitDbPost (some [true]) []).1 = .alreadySetup ∧
    (rawInitDbPost none []).1 = .tablesCreated ∧
    (rawInitDbPost none []).2 = rawInitTables ∧
    rawInitTables ≠ [] := by
  refine ⟨rfl, ?_, ?_, by decide⟩ <;> decide

/-- Amended C8: the guarded `/api/init-db` endpoint rejects any request
without the correct shared secret, performing no writes, and a repeated
invocation after a successful seed detects the marker user and performs no
writes; the raw-SQL init-db variant, however, is not secret-gated. -/
theorem initDb_guarded :
    (∀ db secret expected deploy now uid batch,
      secret ≠ some expected →
      initDbPost db secret expected deploy now uid batch = (.unauthorized, db)) ∧
    (∀ db expected deploy now uid batch,
      isDatabaseInitialized db = true →
      initDbPost db (some expected) expected deploy now uid batch =
        (.alreadyInitialized, db)) ∧
    (∀ db uid now batch,
      isDatabaseInitialized (performInitialization db uid now batch) = true) := by
  refine ⟨?_, ?_, ?_⟩
  · intro db secret expected deploy now uid batch h
    simp [initDbPost, h]
  · intro db expected deploy now uid batch h
    simp [initDbPost, h]
  · intro db uid now batch
    unfold performInitialization isDatabaseInitialized
    cases hf : db.users.find? (fun u => u.email = defaultUserEmail) with
    | none => simp
    | some u =>
      have hu := List.find?_some hf
      simp only [decide_eq_true_eq] at hu
      simp only [List.any_eq_true]
      exact ⟨u, List.mem_of_find?_eq_some hf, by simp [hu]⟩

/-- Witness for the amended C8: a wrong secret is rejected on a concrete
state, and a second run right after a successful seed is a no-op. -/
theorem initDb_guarded_witness :
    initDbPost emptyDB (some "wrong") "init-database-2024" none 0 1 ⟨[], [], []⟩ =
      (.unauthorized, emptyDB) ∧
    initDbPost exBaseDb (some "init-database-2024") "init-database-2024" none 0 1 ⟨[], [], []⟩ =
      (.alreadyInitialized, exBaseDb) :=
  ⟨initDb_guarded.1 emptyDB (some "wrong") "init-database-2024" none 0 1 ⟨[], [], []⟩ (by decide),
   initDb_guarded.2.1 exBaseDb "init-database-2024" none 0 1 ⟨[], [], []⟩ (by decide)⟩

/-! ## Claim C10: self-update does not conflict -/

/-- Claim C10: updating a customer with the email (resp. phone) value it
already holds succeeds without a conflict error; the duplicate checks only
consider customers other than the one being updated and are skipped when the
supplied value equals the current one. -/
theorem updateCustomer_self_no_conflict :
    ∀ db cid c r,
      db.customers.find? (fun x => x.id = cid) = some c →
      updateCustomerValid r = true →
      (∀ e, r.email = some e →
        (c.email = some e ∨ ∀ c2 ∈ db.customers, c2.email = some e → c2.id = cid)) →
      (∀ p, r.phone = some p →
        (c.phone = some p ∨ ∀ c2 ∈ db.customers, c2.phone = some p → c2.id = cid)) →
      (updateCustomer db cid r).1 = .updated (applyCustomerUpdate r c) := by
  intro db cid c r hfind hvalid hemail hphone
  have hec : updateEmailConflict db cid c r = false := by
    unfold updateEmailConflict
    cases he : r.email with
    | none => rfl
    | some e =>
      rcases hemail e he with hsame | hothers
      · simp [hsame]
      · have hany : (db.customers.any (fun c2 => c2.email = some e && c2.id ≠ cid)) = false := by
          rw [List.any_eq_false]
          intro c2 hc2
          simp only [Bool.and_eq_true, decide_eq_true_eq, not_and]
          intro hmail
          simp [hothers c2 hc2 hmail]
        simp [hany]
        exact fun _ _ => hothers
  have hpc : updatePhoneConflict db cid c r = false := by
    unfold updatePhoneConflict
    cases hp : r.phone with
    | none => rfl
    | some p =>
      rcases hphone p hp with hsame | hothers
      · simp [hsame]
      · have hany : (db.customers.any (fun c2 => c2.phone = some p && c2.id ≠ cid)) = false := by
          rw [List.any_eq_false]
          intro c2 hc2
          simp only [Bool.and_eq_true, decide_eq_true_eq, not_and]
          intro hph
          simp [hothers c2 hc2 hph]
        simp [hany]
        exact fun _ _ => hothers
  simp [updateCustomer, hvalid, hfind, hec, hpc]

/-- Witness for C10: re-submitting the customer record with its own email
and phone succeeds. -/
theorem updateCustomer_self_no_conflict_witness :
    (updateCustomer exUpdDb 1 exUpdReqSame).1 =
      .updated (applyCustomerUpdate exUpdReqSame
        ⟨1, "张总", none, some "zhang@example.com", some "13800138000", none, 1, 1⟩) :=
  updateCustomer_self_no_conflict exUpdDb 1
    ⟨1, "张总", none, some "zhang@example.com", some "13800138000", none, 1, 1⟩
    exUpdReqSame (by decide) (by decide)
    (by intro e he; left; cases he; decide)
    (by intro p hp; left; cases hp; decide)

/-! ## Claim C6: duplicate customer creation -/

/-- Claim C6: of two valid creation requests carrying the same non-null
email, whichever runs first succeeds and the other receives the translated
conflict message (and writes nothing); likewise for two requests carrying
the same non-null phone. -/
theorem createCustomer_duplicate_conflict :
    (∀ db r1 r2 e u1 cid1 u2 cid2 t1 t2,
      createCustomerValid r1 = true → createCustomerValid r2 = true →
      r1.email = some e → r2.email = some e →
      (∀ c ∈ db.customers, c.email ≠ some e) →
      (∀ p, r1.phone = some p → ∀ c ∈ db.customers, c.phone ≠ some p) →
      ∃ cN,
        (createCustomer db r1 u1 cid1 t1).1 = .created cN ∧
        cN.email = some e ∧
        createCustomer (createCustomer db r1 u1 cid1 t1).2 r2 u2 cid2 t2 =
          (.conflict emailConflictMsg, (createCustomer db r1 u1 cid1 t1).2)) ∧
    (∀ db r1 r2 p u1 cid1 u2 cid2 t1 t2,
      createCustomerValid r1 = true → createCustomerValid r2 = true →
      r1.phone = some p → r2.phone = some p →
      (∀ c ∈ db.customers, c.phone ≠ some p) →
      (∀ e, r1.email = some e → ∀ c ∈ db.customers, c.email ≠ some e) →
      (∀ e, r2.email = some e →
        (∀ c ∈ db.customers, c.email ≠ some e) ∧ r1.email ≠ some e) →
      ∃ cN,
        (createCustomer db r1 u1 cid1 t1).1 = .created cN ∧
        cN.phone = some p ∧
        createCustomer (createCustomer db r1 u1 cid1 t1).2 r2 u2 cid2 t2 =
          (.conflict phoneConflictMsg, (createCustomer db r1 u1 cid1 t1).2)) := by
  constructor
  · intro db r1 r2 e u1 cid1 u2 cid2 t1 t2 hv1 hv2 he1 he2 hfresh hphone
    have hcust0 : (getOrCreateDefaultUser db u1 t1).2.customers = db.customers :=
      getOrCreateDefaultUser_customers db u1 t1
    have het1 : createEmailTaken (getOrCreateDefaultUser db u1 t1).2 r1 = false := by
      unfold createEmailTaken
      rw [he1, hcust0, List.any_eq_false]
      intro c hc
      simp [hfresh c hc]
    have hpt1 : createPhoneTaken (getOrCreateDefaultUser db u1 t1).2 r1 = false := by
      unfold createPhoneTaken
      cases hp : r1.phone with
      | none => rfl
      | some p =>
        rw [hcust0, List.any_eq_false]
        intro c hc
        simp [hphone p hp c hc]
    have hstep1 : createCustomer db r1 u1 cid1 t1 =
        (.created ⟨cid1, r1.name, r1.companyInfo, r1.email, r1.phone, r1.address, t1,
            (getOrCreateDefaultUser db u1 t1).1⟩,
         { (getOrCreateDefaultUser db u1 t1).2 with
            customers := (getOrCreateDefaultUser db u1 t1).2.customers ++
              [⟨cid1, r1.name, r1.companyInfo, r1.email, r1.phone, r1.address, t1,
                (getOrCreateDefaultUser db u1 t1).1⟩] }) := by
      simp [createCustomer, hv1, het1, hpt1]
    refine ⟨_, by rw [hstep1], by simpa using he1, ?_⟩
    rw [hstep1]
    set c1 : Customer :=
      ⟨cid1, r1.name, r1.companyInfo, r1.email, r1.phone, r1.address, t1,
        (getOrCreateDefaultUser db u1 t1).1⟩ with hc1
    set db1 : DB :=
      { (getOrCreateDefaultUser db u1 t1).2 with
          customers := (getOrCreateDefaultUser db u1 t1).2.customers ++ [c1] } with hdb1
    have hdef1 : (getOrCreateDefaultUser db1 u2 t2).2 = db1 := by
      apply getOrCreateDefaultUser_of_default
      obtain ⟨u, hu, hue⟩ := getOrCreateDefaultUser_hasDefault db u1 t1
      exact ⟨u, hu, hue⟩
    have het2 : createEmailTaken db1 r2 = true := by
      unfold createEmailTaken
      rw [he2, List.any_eq_true]
      refine ⟨c1, by simp [hdb1], ?_⟩
      simp [hc1, he1]
    simp [createCustomer, hv2, hdef1, het2]
  · intro db r1 r2 p u1 cid1 u2 cid2 t1 t2 hv1 hv2 hp1 hp2 hfresh hemail1 hemail2
    have hcust0 : (getOrCreateDefaultUser db u1 t1).2.customers = db.customers :=
      getOrCreateDefaultUser_customers db u1 t1
    have het1 : createEmailTaken (getOrCreateDefaultUser db u1 t1).2 r1 = false := by
      unfold createEmailTaken
      cases he : r1.email with
      | none => rfl
      | some e =>
        rw [hcust0, List.any_eq_false]
        intro c hc
        simp [hemail1 e he c hc]
    have hpt1 : createPhoneTaken (getOrCreateDefaultUser db u1 t1).2 r1 = false := by
      unfold createPhoneTaken
      rw [hp1, hcust0, List.any_eq_false]
      intro c hc
      simp [hfresh c hc]
    have hstep1 : createCustomer db r1 u1 cid1 t1 =
        (.created ⟨cid1, r1.name, r1.companyInfo, r1.email, r1.phone, r1.address, t1,
            (getOrCreateDefaultUser db u1 t1).1⟩,
         { (getOrCreateDefaultUser db u1 t1).2 with
            customers := (getOrCreateDefaultUser db u1 t1).2.customers ++
              [⟨cid1, r1.name, r1.companyInfo, r1.email, r1.phone, r1.address, t1,
                (getOrCreateDefaultUser db u1 t1).1⟩] }) := by
      simp [createCustomer, hv1, het1, hpt1]
    refine ⟨_, by rw [hstep1], by simpa using hp1, ?_⟩
    rw [hstep1]
    set c1 : Customer :=
      ⟨cid1, r1.name, r1.companyInfo, r1.email, r1.phone, r1.address, t1,
        (getOrCreateDefaultUser db u1 t1).1⟩ with hc1
    set db1 : DB :=
      { (getOrCreateDefaultUser db u1 t1).2 with
          customers := (getOrCreateDefaultUser db u1 t1).2.customers ++ [c1] } with hdb1
    have hdef1 : (getOrCreateDefaultUser db1 u2 t2).2 = db1 := by
      apply getOrCreateDefaultUser_of_default
      obtain ⟨u, hu, hue⟩ := getOrCreateDefaultUser_hasDefault db u1 t1
      exact ⟨u, hu, hue⟩
    have het2 : createEmailTaken db1 r2 = false := by
      unfold createEmailTaken
      cases he : r2.email with
      | none => rfl
      | some e =>
        rw [List.any_eq_false]
        intro c hc
        simp only [hdb1, List.mem_append, List.mem_singleton] at hc
        rcases hc with hc | hc
        · rw [hcust0] at hc
          simp [(hemail2 e he).1 c hc]
        · subst hc
          simp [hc1]
          intro habs
          exact absurd habs (hemail2 e he).2
    have hpt2 : createPhoneTaken db1 r2 = true := by
      unfold createPhoneTaken
      rw [hp2, List.any_eq_true]
      refine ⟨c1, by simp [hdb1], ?_⟩
      simp [hc1, hp1]
    simp [createCustomer, hv2, hdef1, het2, hpt2]

/-- Witness for C6: two concrete requests sharing the email
`zhang@example.com` on the empty database — the first succeeds, the second
receives the translated email-conflict message. -/
theorem createCustomer_duplicate_conflict_witness :
    ∃ cN,
      (createCustomer emptyDB exCreateReq 1 2 10).1 = .created cN ∧
      cN.email = some "zhang@example.com" ∧
      createCustomer (createCustomer emptyDB exCreateReq 1 2 10).2
          exCreateReqSameEmail 3 4 20 =
        (.conflict emailConflictMsg, (createCustomer emptyDB exCreateReq 1 2 10).2) :=
  createCustomer_duplicate_conflict.1 emptyDB exCreateReq exCreateReqSameEmail
    "zhang@example.com" 1 2 3 4 10 20 (by decide) (by decide) (by decide) (by decide)
    (by intro c hc; simp [emptyDB] at hc) (by intro p hp c hc; simp [emptyDB] at hc)

/-! ## Claim C1: follow-up creation is atomic -/

/-- Every requested attachment has a corresponding inserted row when the id
supply matches the request length. -/
theorem mkAttachmentRows_covers :
    ∀ (attIds : List Id) (l : List AttachmentInput) (recId : Id) (now : Time),
      attIds.length = l.length →
      ∀ ai ∈ l, ∃ row ∈ mkAttachmentRows attIds l recId now,
        row.followUpRecordId = recId ∧ row.fileName = ai.fileName ∧
        row.fileUrl = ai.fileUrl ∧ row.fileType = ai.fileType ∧
        row.fileSize = ai.fileSize := by
  intro attIds l
  induction l generalizing attIds with
  | nil =>
    intro recId now _ ai hai
    simp at hai
  | cons a as ih =>
    intro recId now h ai hai
    cases attIds with
    | nil => simp at h
    | cons i is =>
      rcases List.mem_cons.mp hai with rfl | hai2
      · exact ⟨⟨i, ai.fileName, ai.fileUrl, ai.fileType, ai.fileSize, now, recId⟩,
          by simp [mkAttachmentRows], rfl, rfl, rfl, rfl, rfl⟩
      · have hlen : is.length = as.length := by simpa using h
        obtain ⟨row, hrow, hprops⟩ := ih is recId now hlen ai hai2
        refine ⟨row, ?_, hprops⟩
        simp only [mkAttachmentRows, List.zip_cons_cons, List.map_cons, List.mem_cons]
        right
        simpa [mkAttachmentRows] using hrow

/-- Claim C1: for a creation request carrying a non-empty attachment list
and a next-step, whatever failure is injected between the transaction steps,
afterwards either the follow-up record, every requested attachment and the
PENDING plan all exist, or the database is exactly the original one and none
of them exist. -/
theorem followUp_creation_atomic :
    ∀ db cid r recId planId attIds now failAt atts ns,
      r.attachments = some atts → atts ≠ [] → r.nextStep = some ns →
      attIds.length = atts.length →
      (∀ fr ∈ db.followUpRecords, fr.id ≠ recId) →
      (∀ p ∈ db.nextStepPlans, p.id ≠ planId) →
      (∀ a ∈ db.attachments, a.id ∉ attIds) →
      (((createFollowUp db cid r recId planId attIds now failAt).2 = db ∧
        (∀ fr ∈ (createFollowUp db cid r recId planId attIds now failAt).2.followUpRecords,
          fr.id ≠ recId) ∧
        (∀ a ∈ (createFollowUp db cid r recId planId attIds now failAt).2.attachments,
          a.id ∉ attIds) ∧
        (∀ p ∈ (createFollowUp db cid r recId planId attIds now failAt).2.nextStepPlans,
          p.id ≠ planId)) ∨
      ((∃ uid, (⟨recId, r.content, r.followUpType, now, cid, uid⟩ : FollowUpRecord) ∈
          (createFollowUp db cid r recId planId attIds now failAt).2.followUpRecords) ∧
        (∀ ai ∈ atts, ∃ a ∈ (createFollowUp db cid r recId planId attIds now failAt).2.attachments,
          a.followUpRecordId = recId ∧ a.fileName = ai.fileName ∧
          a.fileUrl = ai.fileUrl ∧ a.fileType = ai.fileType ∧ a.fileSize = ai.fileSize) ∧
        (∃ uid, (⟨planId, ns.dueDate, ns.notes, .PENDING, now, recId, cid, uid⟩ : NextStepPlan) ∈
          (createFollowUp db cid r recId planId attIds now failAt).2.nextStepPlans))) := by
  intro db cid r recId planId attIds now failAt atts ns
  intro hatt hne hns hlen hfrFresh hplFresh hattFresh
  cases hv : createFollowUpValid r with
  | false =>
    left
    simp only [createFollowUp, hv]
    exact ⟨rfl, hfrFresh, hattFresh, hplFresh⟩
  | true =>
    cases hfind : db.customers.find? (fun c => c.id = cid) with
    | none =>
      left
      simp only [createFollowUp, hv, hfind]
      simp
      exact ⟨hfrFresh, hattFresh, hplFresh⟩
    | some c =>
      cases hu : db.users.head? with
      | none =>
        left
        simp only [createFollowUp, hv, hfind, hu]
        simp
        exact ⟨hfrFresh, hattFresh, hplFresh⟩
      | some u =>
        have hpos : 0 < atts.length := List.length_pos.mpr hne
        cases failAt with
        | some fp =>
          cases fp <;>
          · left
            simp only [createFollowUp, hv, hfind, hu, followUpTxBody, hatt, hns]
            simp [hpos]
            exact ⟨hfrFresh, hattFresh, hplFresh⟩
        | none =>
          right
          have hfr0 : (db.followUpRecords.find? (fun x => x.id = recId)) = none := by
            rw [List.find?_eq_none]
            intro x hx
            simp [hfrFresh x hx]
          have hbody : followUpTxBody db cid u.id r recId planId attIds now none =
              .ok ({ db with
                  followUpRecords := db.followUpRecords ++
                    [⟨recId, r.content, r.followUpType, now, cid, u.id⟩]
                  attachments := db.attachments ++ mkAttachmentRows attIds atts recId now
                  nextStepPlans := db.nextStepPlans ++
                    [⟨planId, ns.dueDate, ns.notes, .PENDING, now, recId, cid, u.id⟩] },
                some (composeFollowUpItem
                  { db with
                    followUpRecords := db.followUpRecords ++
                      [⟨recId, r.content, r.followUpType, now, cid, u.id⟩]
                    attachments := db.attachments ++ mkAttachmentRows attIds atts recId now
                    nextStepPlans := db.nextStepPlans ++
                      [⟨planId, ns.dueDate, ns.notes, .PENDING, now, recId, cid, u.id⟩] }
                  ⟨recId, r.content, r.followUpType, now, cid, u.id⟩)) := by
            simp only [followUpTxBody, hatt, hns]
            simp [hpos, hfr0]
          simp only [createFollowUp, hv, hfind, hu, hbody]
          refine ⟨⟨u.id, by simp⟩, ?_, ⟨u.id, by simp⟩⟩
          intro ai hai
          obtain ⟨row, hrow, hp1, hp2, hp3, hp4, hp5⟩ :=
            mkAttachmentRows_covers attIds atts recId now hlen ai hai
          exact ⟨row, by simp [hrow], hp1, hp2, hp3, hp4, hp5⟩

/-- Witness for C1: on a concrete database, a failure injected right after
the attachment insert rolls everything back, and the run without injected
failure persists the record, the attachment and the plan. -/
theorem followUp_creation_atomic_witness :
    (∃ uid, (⟨100, "Called.", .PHONE_CALL, 50, 1, uid⟩ : FollowUpRecord) ∈
        (createFollowUp exBaseDb 1 exFollowUpReq 100 101 [102] 50 none).2.followUpRecords) ∧
    (∃ uid, (⟨101, 1000, some "prepare quote", .PENDING, 50, 100, 1, uid⟩ : NextStepPlan) ∈
        (createFollowUp exBaseDb 1 exFollowUpReq 100 101 [102] 50 none).2.nextStepPlans) ∧
    (createFollowUp exBaseDb 1 exFollowUpReq 100 101 [102] 50
        (some .afterAttachmentInsert)).2 = exBaseDb := by
  rcases followUp_creation_atomic exBaseDb 1 exFollowUpReq 100 101 [102] 50 none
      [⟨"a.pdf", "https://blob/a.pdf", "pdf", some 100⟩] ⟨1000, some "prepare quote"⟩
      rfl (by decide) rfl (by decide) (by decide) (by decide) (by decide) with h | h
  · exact absurd h.1 (by decide)
  · exact ⟨h.1, h.2.2, by decide⟩

/-! ## Claim C3: two-tier customer list ordering -/

theorem customerLe_trans :
    ∀ a b c, customerLe a b → customerLe b c → customerLe a c := by
  intro a b c
  unfold customerLe customerCompare
  cases a.latest <;> cases b.latest <;> cases c.latest <;> simp <;> omega

instance : IsTrans CustomerListItem customerLe := ⟨customerLe_trans⟩

theorem customerLe_total : ∀ a b, customerLe a b ∨ customerLe b a := by
  intro a b
  unfold customerLe customerCompare
  cases a.latest <;> cases b.latest <;> simp <;> omega

instance : IsTotal CustomerListItem customerLe := ⟨customerLe_total⟩

theorem customerLe_tier {a b : CustomerListItem} :
    customerLe a b → listTierOrdered a b := by
  unfold customerLe customerCompare listTierOrdered
  cases a.latest <;> cases b.latest <;> simp

/-- Claim C3: the customer list aggregation returns all customers, every
customer with a follow-up precedes every customer without one, customers
with follow-ups are ordered by newest follow-up descending, customers
without are ordered by their own creation time descending; on the example
database the order is [B, A, C]. -/
theorem getCustomers_two_tier :
    (∀ db, List.Perm (getCustomers db) (db.customers.map (toListItem db)) ∧
      (getCustomers db).Pairwise listTierOrdered) ∧
    getCustomers exListDb =
      [⟨2, "B", 2, some ⟨12, "callB", .PHONE_CALL, 20, 2, 1⟩⟩,
       ⟨1, "A", 1, some ⟨11, "callA", .PHONE_CALL, 10, 1, 1⟩⟩,
       ⟨3, "C", 5, none⟩] := by
  constructor
  · intro db
    constructor
    · exact List.perm_insertionSort customerLe _
    · exact (List.sorted_insertionSort customerLe
        (db.customers.map (toListItem db))).imp customerLe_tier
  · decide

/-! ## Claim C5: follow-up listing -/

theorem composeFollowUpItem_record (db : DB) (fr : FollowUpRecord) :
    (composeFollowUpItem db fr).record = fr := rfl

/-- Claim C5: listing an existing customer returns exactly its follow-up
records ordered by `createdAt` descending (strictly so when the record
timestamps are pairwise distinct), each with attachments ordered by
`createdAt` ascending and plans ordered by `dueDate` ascending; a missing
customer yields the not-found error.  The handler performs only reads: its
type returns no successor database state. -/
theorem listFollowUps_contract :
    (∀ db cid, db.customers.find? (fun c => c.id = cid) = none →
      listFollowUps db cid = .error customerNotFoundMsg) ∧
    (∀ db cid items, listFollowUps db cid = .ok items →
      List.Perm (items.map (fun it => it.record))
        (db.followUpRecords.filter (fun fr => fr.customerId = cid)) ∧
      items.Pairwise (fun x y => y.record.createdAt ≤ x.record.createdAt) ∧
      ((db.followUpRecords.map (fun fr => fr.createdAt)).Nodup →
        items.Pairwise (fun x y => y.record.createdAt < x.record.createdAt)) ∧
      (∀ it ∈ items,
        List.Perm it.attachments
          (db.attachments.filter (fun a => a.followUpRecordId = it.record.id)) ∧
        it.attachments.Pairwise (fun x y => x.createdAt ≤ y.createdAt) ∧
        List.Perm it.nextStepPlans
          (db.nextStepPlans.filter (fun p => p.followUpRecordId = it.record.id)) ∧
        it.nextStepPlans.Pairwise (fun x y => x.dueDate ≤ y.dueDate))) := by
  constructor
  · intro db cid h
    simp [listFollowUps, h]
  · intro db cid items hok
    cases hfind : db.customers.find? (fun c => c.id = cid) with
    | none => simp [listFollowUps, hfind] at hok
    | some c =>
      have hitems : items =
          (List.insertionSort recordLeDesc
            (db.followUpRecords.filter (fun fr => fr.customerId = cid))).map
            (composeFollowUpItem db) := by
        have := hok
        simp [listFollowUps, hfind] at this
        exact this.symm
      subst hitems
      set sorted := List.insertionSort recordLeDesc
        (db.followUpRecords.filter (fun fr => fr.customerId = cid)) with hsorted
      have hperm : List.Perm sorted
          (db.followUpRecords.filter (fun fr => fr.customerId = cid)) :=
        List.perm_insertionSort recordLeDesc _
      have hsortedPW : sorted.Pairwise recordLeDesc :=
        List.sorted_insertionSort recordLeDesc _
      refine ⟨?_, ?_, ?_, ?_⟩
      · have : (sorted.map (composeFollowUpItem db)).map (fun it => it.record) = sorted := by
          rw [List.map_map]
          exact List.map_id _
        rw [this]
        exact hperm
      · rw [List.pairwise_map]
        exact hsortedPW.imp (fun h => h)
      · intro hnodup
        have hsub : List.Sublist
            ((db.followUpRecords.filter (fun fr => fr.customerId = cid)).map
              (fun fr => fr.createdAt))
            (db.followUpRecords.map (fun fr => fr.createdAt)) :=
          List.Sublist.map _ (List.filter_sublist _)
        have hnodupF : ((db.followUpRecords.filter (fun fr => fr.customerId = cid)).map
            (fun fr => fr.createdAt)).Nodup := hnodup.sublist hsub
        have hnodupS : (sorted.map (fun fr => fr.createdAt)).Nodup :=
          ((hperm.map (fun fr => fr.createdAt)).nodup_iff).mpr hnodupF
        have hneSorted : sorted.Pairwise (fun x y => x.createdAt ≠ y.createdAt) :=
          List.pairwise_map.mp hnodupS
        rw [List.pairwise_map]
        exact (hsortedPW.and hneSorted).imp
          (fun h => Nat.lt_of_le_of_ne h.1 (fun he => h.2 he.symm))
      · intro it hit
        obtain ⟨fr, _, rfl⟩ := List.mem_map.mp hit
        refine ⟨List.perm_insertionSort attachmentLeAsc _, ?_,
          List.perm_insertionSort planLeDueAsc _, ?_⟩
        · exact (List.sorted_insertionSort attachmentLeAsc _).imp (fun h => h)
        · exact (List.sorted_insertionSort planLeDueAsc _).imp (fun h => h)

/-- Witness for C5: concrete checks on the example database — the listing
returns the two records newest-first with attachments oldest-first and plans
soonest-due-first, and an unknown id is a not-found error. -/
theorem listFollowUps_contract_witness :
    listFollowUps exBaseDb 99 = .error customerNotFoundMsg ∧
    (∀ items, listFollowUps exBaseDb 1 = .ok items →
      items.Pairwise (fun x y => y.record.createdAt ≤ x.record.createdAt)) ∧
    listFollowUps exBaseDb 1 = .ok
      [⟨⟨11, "later", .VISIT, 20, 1, 1⟩, [], []⟩,
       ⟨⟨10, "earlier", .MEETING, 10, 1, 1⟩,
        [⟨21, "b.png", "https://blob/b.png", "image", some 200, 11, 10⟩,
         ⟨20, "a.pdf", "https://blob/a.pdf", "pdf", some 100, 12, 10⟩],
        [⟨31, 100, none, .PENDING, 20, 10, 1, 1⟩,
         ⟨30, 200, none, .PENDING, 10, 10, 1, 1⟩]⟩] :=
  ⟨listFollowUps_contract.1 exBaseDb 99 (by decide),
   fun items h => (listFollowUps_contract.2 exBaseDb 1 items h).2.1,
   by rfl⟩

/-! ## Claim C2 (amended): uniqueness holds through the application checks -/

theorem CustomerRowsDistinct_of_customers_eq {db db2 : DB}
    (h : db2.customers = db.customers) (hd : CustomerRowsDistinct db) :
    CustomerRowsDistinct db2 := by
  unfold CustomerRowsDistinct at *
  rw [h]
  exact hd

theorem applyCustomerUpdate_id (r : UpdateCustomerInput) (c : Customer) :
    (applyCustomerUpdate r c).id = c.id := rfl

/-- The updated row cannot share a non-null email with any other customer
row, given that the duplicate-email check came back clean. -/
theorem updated_no_email_clash (db : DB) (cid : Id) (c : Customer) (r : UpdateCustomerInput)
    (hd : CustomerRowsDistinct db) (hc_mem : c ∈ db.customers) (hc_id : c.id = cid)
    (hec : updateEmailConflict db cid c r = false)
    (b : Customer) (hb : b ∈ db.customers) (hB : b.id ≠ cid) :
    ∀ e, (applyCustomerUpdate r c).email = some e → b.email ≠ some e := by
  intro e hupd habs
  have hcb : c.id ≠ b.id := by
    rw [hc_id]
    exact fun h => hB h.symm
  simp only [applyCustomerUpdate] at hupd
  cases hre : r.email with
  | none =>
    rw [hre] at hupd
    exact (hd.2 c hc_mem b hb hcb).1 e hupd habs
  | some s =>
    rw [hre] at hupd
    by_cases hs : s = ""
    · rw [hs] at hupd
      simp [jsOrNull] at hupd
    · simp only [jsOrNull, if_neg hs, Option.some.injEq] at hupd
      subst hupd
      by_cases hdiff : c.email = some s
      · exact (hd.2 c hc_mem b hb hcb).1 s hdiff habs
      · unfold updateEmailConflict at hec
        rw [hre] at hec
        have hds : some s ≠ c.email := fun h => hdiff h.symm
        simp [hs, hds] at hec
        exact hB (hec b hb habs)

/-- The phone analogue of `updated_no_email_clash`. -/
theorem updated_no_phone_clash (db : DB) (cid : Id) (c : Customer) (r : UpdateCustomerInput)
    (hd : CustomerRowsDistinct db) (hc_mem : c ∈ db.customers) (hc_id : c.id = cid)
    (hpc : updatePhoneConflict db cid c r = false)
    (b : Customer) (hb : b ∈ db.customers) (hB : b.id ≠ cid) :
    ∀ p, (applyCustomerUpdate r c).phone = some p → b.phone ≠ some p := by
  intro p hupd habs
  have hcb : c.id ≠ b.id := by
    rw [hc_id]
    exact fun h => hB h.symm
  simp only [applyCustomerUpdate] at hupd
  cases hre : r.phone with
  | none =>
    rw [hre] at hupd
    exact (hd.2 c hc_mem b hb hcb).2 p hupd habs
  | some s =>
    rw [hre] at hupd
    by_cases hs : s = ""
    · rw [hs] at hupd
      simp [jsOrNull] at hupd
    · simp only [jsOrNull, if_neg hs, Option.some.injEq] at hupd
      subst hupd
      by_cases hdiff : c.phone = some s
      · exact (hd.2 c hc_mem b hb hcb).2 s hdiff habs
      · unfold updatePhoneConflict at hpc
        rw [hre] at hpc
        have hds : some s ≠ c.phone := fun h => hdiff h.symm
        simp [hs, hds] at hpc
        exact hB (hpc b hb habs)

theorem createCustomer_preserves_distinct (db : DB) (r : CreateCustomerInput)
    (u cNew : Id) (t : Time)
    (hfresh : ∀ c ∈ db.customers, c.id ≠ cNew)
    (hd : CustomerRowsDistinct db) :
    CustomerRowsDistinct (createCustomer db r u cNew t).2 := by
  cases hv : createCustomerValid r with
  | false =>
    have h : (createCustomer db r u cNew t).2 = db := by simp [createCustomer, hv]
    rw [h]
    exact hd
  | true =>
    have hcust0 : (getOrCreateDefaultUser db u t).2.customers = db.customers :=
      getOrCreateDefaultUser_customers db u t
    cases het : createEmailTaken (getOrCreateDefaultUser db u t).2 r with
    | true =>
      have h : (createCustomer db r u cNew t).2 = (getOrCreateDefaultUser db u t).2 := by
        simp [createCustomer, hv, het]
      rw [h]
      exact CustomerRowsDistinct_of_customers_eq hcust0 hd
    | false =>
      cases hpt : createPhoneTaken (getOrCreateDefaultUser db u t).2 r with
      | true =>
        have h : (createCustomer db r u cNew t).2 = (getOrCreateDefaultUser db u t).2 := by
          simp [createCustomer, hv, het, hpt]
        rw [h]
        exact CustomerRowsDistinct_of_customers_eq hcust0 hd
      | false =>
        have hres : (createCustomer db r u cNew t).2.customers =
            db.customers ++ [⟨cNew, r.name, r.companyInfo, r.email, r.phone, r.address, t,
              (getOrCreateDefaultUser db u t).1⟩] := by
          simp [createCustomer, hv, het, hpt, hcust0]
        have hEmailFree : ∀ e, r.email = some e → ∀ c ∈ db.customers, c.email ≠ some e := by
          intro e he c hc
          unfold createEmailTaken at het
          rw [he, hcust0] at het
          simpa using List.any_eq_false.mp het c hc
        have hPhoneFree : ∀ p, r.phone = some p → ∀ c ∈ db.customers, c.phone ≠ some p := by
          intro p hp c hc
          unfold createPhoneTaken at hpt
          rw [hp, hcust0] at hpt
          simpa using List.any_eq_false.mp hpt c hc
        unfold CustomerRowsDistinct
        rw [hres]
        constructor
        · rw [List.map_append]
          apply List.Nodup.append hd.1 (by simp)
          intro x hx hx2
          simp only [List.map_cons, List.map_nil, List.mem_cons, List.not_mem_nil,
            or_false] at hx2
          obtain ⟨c0, hc0, rfl⟩ := List.mem_map.mp hx
          exact hfresh c0 hc0 hx2
        · intro a ha b hb hab
          rcases List.mem_append.mp ha with haO | haN <;>
            rcases List.mem_append.mp hb with hbO | hbN
          · exact hd.2 a haO b hbO hab
          · have hbeq : b = ⟨cNew, r.name, r.companyInfo, r.email, r.phone, r.address, t,
                (getOrCreateDefaultUser db u t).1⟩ := by simpa using hbN
            subst hbeq
            constructor
            · intro e hae habs
              exact hEmailFree e habs a haO hae
            · intro p hap habs
              exact hPhoneFree p habs a haO hap
          · have haeq : a = ⟨cNew, r.name, r.companyInfo, r.email, r.phone, r.address, t,
                (getOrCreateDefaultUser db u t).1⟩ := by simpa using haN
            subst haeq
            constructor
            · intro e hae
              exact hEmailFree e hae b hbO
            · intro p hap
              exact hPhoneFree p hap b hbO
          · have haeq : a = ⟨cNew, r.name, r.companyInfo, r.email, r.phone, r.address, t,
                (getOrCreateDefaultUser db u t).1⟩ := by simpa using haN
            have hbeq : b = ⟨cNew, r.name, r.companyInfo, r.email, r.phone, r.address, t,
                (getOrCreateDefaultUser db u t).1⟩ := by simpa using hbN
            exact absurd (by rw [haeq, hbeq]) hab

theorem updateCustomer_preserves_distinct (db : DB) (cid : Id) (r : UpdateCustomerInput)
    (hd : CustomerRowsDistinct db) :
    CustomerRowsDistinct (updateCustomer db cid r).2 := by
  cases hv : updateCustomerValid r with
  | false =>
    have h : (updateCustomer db cid r).2 = db := by simp [updateCustomer, hv]
    rw [h]
    exact hd
  | true =>
    cases hfind : db.customers.find? (fun c => c.id = cid) with
    | none =>
      have h : (updateCustomer db cid r).2 = db := by simp [updateCustomer, hv, hfind]
      rw [h]
      exact hd
    | some c =>
      cases hec : updateEmailConflict db cid c r with
      | true =>
        have h : (updateCustomer db cid r).2 = db := by simp [updateCustomer, hv, hfind, hec]
        rw [h]
        exact hd
      | false =>
        cases hpc : updatePhoneConflict db cid c r with
        | true =>
          have h : (updateCustomer db cid r).2 = db := by
            simp [updateCustomer, hv, hfind, hec, hpc]
          rw [h]
          exact hd
        | false =>
          have hres : (updateCustomer db cid r).2.customers =
              db.customers.map (fun x => if x.id = cid then applyCustomerUpdate r x else x) := by
            simp [updateCustomer, hv, hfind, hec, hpc]
          have hc_mem : c ∈ db.customers := List.mem_of_find?_eq_some hfind
          have hc_id : c.id = cid := by simpa using List.find?_some hfind
          have huniq : ∀ x ∈ db.customers, x.id = cid → x = c := by
            intro x hx hxid
            exact List.inj_on_of_nodup_map hd.1 hx hc_mem (by rw [hxid, hc_id])
          unfold CustomerRowsDistinct
          rw [hres]
          have hidmap : (db.customers.map
              (fun x => if x.id = cid then applyCustomerUpdate r x else x)).map
                (fun x => x.id) = db.customers.map (fun x => x.id) := by
            rw [List.map_map]
            apply List.map_congr_left
            intro x _
            by_cases hx : x.id = cid <;> simp [hx, applyCustomerUpdate_id]
          constructor
          · rw [hidmap]
            exact hd.1
          · intro a2 ha2 b2 hb2 hab2
            obtain ⟨a, ha, rfl⟩ := List.mem_map.mp ha2
            obtain ⟨b, hb, rfl⟩ := List.mem_map.mp hb2
            have hfid : ∀ x : Customer,
                (if x.id = cid then applyCustomerUpdate r x else x).id = x.id := by
              intro x
              by_cases hx : x.id = cid <;> simp [hx, applyCustomerUpdate_id]
            have hab : a.id ≠ b.id := by
              rw [hfid a, hfid b] at hab2
              exact hab2
            by_cases hA : a.id = cid <;> by_cases hB : b.id = cid
            · exact absurd (hA.trans hB.symm) hab
            · have hac : a = c := huniq a ha hA
              subst hac
              rw [if_pos hA, if_neg hB]
              exact ⟨updated_no_email_clash db cid a r hd ha hA hec b hb hB,
                updated_no_phone_clash db cid a r hd ha hA hpc b hb hB⟩
            · have hbc : b = c := huniq b hb hB
              subst hbc
              rw [if_neg hA, if_pos hB]
              constructor
              · intro e hae habs
                exact updated_no_email_clash db cid b r hd hb hB hec a ha hA e habs hae
              · intro p hap habs
                exact updated_no_phone_clash db cid b r hd hb hB hpc a ha hA p habs hap
            · rw [if_neg hA, if_neg hB]
              exact hd.2 a ha b hb hab

theorem deleteCustomer_preserves_distinct (db : DB) (cid : Id)
    (hd : CustomerRowsDistinct db) :
    CustomerRowsDistinct (deleteCustomer db cid).2 := by
  cases hfind : db.customers.find? (fun c => c.id = cid) with
  | none =>
    have h : (deleteCustomer db cid).2 = db := by simp [deleteCustomer, hfind]
    rw [h]
    exact hd
  | some c =>
    have hres : (deleteCustomer db cid).2.customers =
        db.customers.filter (fun x => x.id ≠ cid) := by
      simp [deleteCustomer, hfind, cascadeDeleteCustomer]
    unfold CustomerRowsDistinct
    rw [hres]
    constructor
    · exact List.Nodup.sublist (List.Sublist.map _ (List.filter_sublist _)) hd.1
    · intro a ha b hb hab
      exact hd.2 a (List.mem_of_mem_filter ha) b (List.mem_of_mem_filter hb) hab

/-- Amended C2: in every database state reachable through the customer
mutations, two distinct customer rows never share a non-null email or a
non-null phone — the uniqueness is maintained by the application-level
pre-checks — while the persisted schema carries a unique index only on
`users(email)`, none on the `customers` table. -/
theorem customer_uniqueness_amended :
    (∀ db, Reachable db →
      ∀ a ∈ db.customers, ∀ b ∈ db.customers, a.id ≠ b.id →
        (∀ e, a.email = some e → b.email ≠ some e) ∧
        (∀ p, a.phone = some p → b.phone ≠ some p)) ∧
    (⟨"users_email_key", "users", ["email"]⟩ : UniqueIndexDef) ∈ migrationUniqueIndexes ∧
    (∀ ix ∈ migrationUniqueIndexes, ix.table = "users") := by
  refine ⟨?_, by decide, by decide⟩
  intro db hreach
  suffices h : CustomerRowsDistinct db from h.2
  induction hreach with
  | empty => exact ⟨by simp [emptyDB], by simp [emptyDB]⟩
  | step _ hs ih =>
    cases hs with
    | create r u cNew t hfc => exact createCustomer_preserves_distinct _ r u cNew t hfc ih
    | update cid r => exact updateCustomer_preserves_distinct _ cid r ih
    | delete cid => exact deleteCustomer_preserves_distinct _ cid ih

/-- Witness for the amended C2: a concrete two-step reachable state (two
customers created through the handler) in which the second row provably
cannot carry the email of the first. -/
theorem customer_uniqueness_amended_witness :
    (⟨4, "王董", none, some "wang@example.com", some "13700137000", none, 20, 1⟩ :
      Customer).email ≠ some "zhang@example.com" :=
  (customer_uniqueness_amended.1
    (createCustomer (createCustomer emptyDB exCreateReq 1 2 10).2 exCreateReq2 3 4 20).2
    (Reachable.step
      (Reachable.step Reachable.empty (Step.create emptyDB exCreateReq 1 2 10 (by decide)))
      (Step.create (createCustomer emptyDB exCreateReq 1 2 10).2 exCreateReq2 3 4 20 (by decide)))
    ⟨2, "张总", none, some "zhang@example.com", some "13800138000", none, 10, 1⟩ (by decide)
    ⟨4, "王董", none, some "wang@example.com", some "13700137000", none, 20, 1⟩ (by decide)
    (by decide)).1 "zhang@example.com" (by decide)

end CRM
